import Mathlib

/-!
# Reaction-wheel hardware model (`generic_rw_hardware_model.cpp`)

A shallow embedding of `Nos3::GenericRWHardwareModel`: the three callbacks
`uart_read_callback`, `command_callback` and `send_periodic_data`, and the frame
builder `create_rw_data`.

Conventions of the embedding.

* A byte is a natural number; a `std::string` and a `std::vector<uint8_t>` are lists of
  bytes.  `ascii` turns a literal of the source into its bytes.
* `send_periodic_data` is embedded twice.  In `Nos3.Binary64` the members are what the
  machine holds: a `double` is its IEEE 754 binary64 pattern, every operation rounds to
  nearest with ties to even, and the tick product `time * _sim_microseconds_per_tick`
  is an `int64_t` with two's-complement wrap-around.  Outside that namespace the same
  code is read in exact arithmetic (rational times, unbounded integer product); this
  reading serves only the properties that assume exact arithmetic or do not depend on
  the arithmetic at all.
* The momentum `double` is never computed with; it is carried as its 64-bit pattern.
* The collaborators reached through pointers (`_uart_connection`, `_command_node`,
  `_sdp`) are the record of what was handed to them.
* Calling a member function through the null pointer of a failed `dynamic_cast` is a
  fault: the operation yields `none`.
* `_sdp->get_data_point()` is taken to hand out a `GenericRWDataPoint`, so the pointer
  cast at the top of `send_periodic_data` succeeds.
* `std::toupper` is the one of the classic locale, and a command buffer without a NUL
  is read to its end.
-/

set_option maxRecDepth 20000

namespace Nos3

/-! ## Bytes and strings -/

/-- The bytes of a string literal of the source. -/
def ascii (s : String) : List Nat := s.toList.map Char.toNat

/-- A `const char*` read into a `std::string`: the bytes before the first NUL. -/
def c_str (data : List Nat) : List Nat := data.takeWhile (fun b => b != 0)

/-- One character through `std::toupper` in the classic locale: `a`..`z` move to
`A`..`Z`, every other byte stays. -/
def toupper (c : Nat) : Nat := if 97 ≤ c ∧ c ≤ 122 then c - 32 else c

/-- The effect of `boost::to_upper(command)`: every character is folded in place. -/
def to_upper (command : List Nat) : List Nat := command.map toupper

/-- The value of `str.substr(pos, n)` for `pos = 0`: the first `n` characters, or all of
them when the string is shorter. -/
def substr (str : List Nat) (n : Nat) : List Nat := str.take n

/-! ## Data model -/

/-- The data point a provider hands out; `momentum` is the bit pattern of the `double`
returned by `get_momentum()`. -/
structure GenericRWDataPoint where
  momentum : Nat
deriving DecidableEq, Repr

/-- The object behind `_sdp`.  `is_42socket_provider` says whether
`dynamic_cast<GenericRWData42SocketProvider*>(_sdp)` yields a non-null pointer (the
provider has `send_command_to_socket`), `socket` lists the commands handed to
`send_command_to_socket`, oldest first, and `data_point` is what `get_data_point()`
returns, already seen as a `GenericRWDataPoint`. -/
structure SimIDataProvider where
  is_42socket_provider : Bool
  socket : List (List Nat)
  data_point : GenericRWDataPoint
deriving DecidableEq, Repr

/-- A message of the command bus; `buffer` is the memory `dbf.data` points to. -/
structure Message where
  buffer : List Nat
deriving DecidableEq, Repr

/-- The members of `GenericRWHardwareModel` the callbacks read or write, the times
being exact numbers.  `_uart_connection` lists the byte vectors passed to `_uart_connection->write`, and
`_command_node` the replies passed to `_command_node->send_reply_message_async`, both
oldest first. -/
structure GenericRWHardwareModel where
  _keep_running : Bool
  _absolute_start_time : ℚ
  _sim_microseconds_per_tick : Int
  _period : ℚ
  _prev_data_sent_time : ℚ
  _sdp : SimIDataProvider
  _uart_connection : List (List Nat)
  _command_node : List (List Nat)
deriving DecidableEq

/-- Byte order of the host, which fixes how a `double` lies in memory. -/
inductive ByteOrder where
  | little_endian
  | big_endian
deriving DecidableEq, Repr

/-! ## The string literals of `command_callback` -/

/-- The token compared in the first branch. -/
def STOP_RWSIM : List Nat := ascii "STOP RWSIM"

/-- The token compared in the second branch. -/
def TORQUE : List Nat := ascii "TORQUE"

/-- The initial value of `response`. -/
def response_invalid : List Nat :=
  ascii "GenericRWHardwareModel::command_callback:  INVALID COMMAND! (Try STOP FOOSIM)"

/-- The value of `response` in the first branch. -/
def response_stopping : List Nat :=
  ascii "GenericRWHardwareModel::command_callback:  STOPPING FOOSIM"

/-- The value of `response` in the second branch. -/
def response_torquing : List Nat :=
  ascii "GenericRWHardwareModel::command_callback:  TORQUING REACTION WHEEL"

/-- The argument of `send_command_to_socket`. -/
def torque_command : List Nat := ascii "SC[0].AC.Whl[0].Tcmd = 0.1"

/-! ## Operations -/

/-- The call `uart_read_callback(buf, len)`; `in_data` is the vector built from
`buf .. buf + len`.  The reply `out_data` is a copy of `in_data`. -/
def uart_read_callback (s : GenericRWHardwareModel) (in_data : List Nat) :
    GenericRWHardwareModel :=
  let out_data := in_data
  { s with _uart_connection := s._uart_connection ++ [out_data] }

/-- The call `_command_node->send_reply_message_async(msg, response.size(), ...)`. -/
def send_reply_message_async (s : GenericRWHardwareModel) (response : List Nat) :
    GenericRWHardwareModel :=
  { s with _command_node := s._command_node ++ [response] }

/-- The call `dynamic_cast<GenericRWData42SocketProvider*>(_sdp)->send_command_to_socket(c)`:
`none` when the cast yields the null pointer. -/
def send_command_to_socket (sdp : SimIDataProvider) (c : List Nat) :
    Option SimIDataProvider :=
  if sdp.is_42socket_provider then some { sdp with socket := sdp.socket ++ [c] } else none

/-- The call `command_callback(msg)`: the command is read from the buffer and folded,
`response` starts as the invalid-command text, a branch may act and replace it, and
the reply is sent once at the end.  A fault in the second branch ends the call. -/
def command_callback (s : GenericRWHardwareModel) (msg : Message) :
    Option GenericRWHardwareModel :=
  let command := c_str msg.buffer
  let response := response_invalid
  let command := to_upper command
  let branch : Option (GenericRWHardwareModel × List Nat) :=
    if substr command 11 = STOP_RWSIM then
      some ({ s with _keep_running := false }, response_stopping)
    else if substr command 6 = TORQUE then
      match send_command_to_socket s._sdp torque_command with
      | none => none
      | some sdp => some ({ s with _sdp := sdp }, response_torquing)
    else
      some (s, response)
  match branch with
  | none => none
  | some (s, response) => some (send_reply_message_async s response)

/-- Byte `i` of the union `momentum_union` after `d_mom` was stored: byte `i` of the
64-bit pattern `d` as it lies in memory on a host of the given byte order. -/
def u_mom (order : ByteOrder) (d : Nat) (i : Nat) : Nat :=
  match order with
  | ByteOrder.little_endian => d / 256 ^ i % 256
  | ByteOrder.big_endian => d / 256 ^ (7 - i) % 256

/-- The call `create_rw_data(data_point, out_data)`: eight `push_back`s. -/
def create_rw_data (order : ByteOrder) (data_point : GenericRWDataPoint)
    (out_data : List Nat) : List Nat :=
  let d := data_point.momentum
  out_data ++ [u_mom order d 0] ++ [u_mom order d 1] ++ [u_mom order d 2]
    ++ [u_mom order d 3] ++ [u_mom order d 4] ++ [u_mom order d 5]
    ++ [u_mom order d 6] ++ [u_mom order d 7]

/-- The local `abs_time` of `send_periodic_data`, in exact arithmetic. -/
def abs_time (s : GenericRWHardwareModel) (time : Int) : ℚ :=
  s._absolute_start_time + ((time * s._sim_microseconds_per_tick : Int) : ℚ) / 1000000

/-- The local `next_time` of `send_periodic_data`, in exact arithmetic. -/
def next_time (s : GenericRWHardwareModel) : ℚ :=
  s._prev_data_sent_time + s._period - ((s._sim_microseconds_per_tick : ℚ) / 1000000) / 2

/-- The call `send_periodic_data(time)`, in exact arithmetic. -/
def send_periodic_data (order : ByteOrder) (s : GenericRWHardwareModel) (time : Int) :
    GenericRWHardwareModel :=
  let data_point := s._sdp.data_point
  let data : List Nat := []
  if next_time s < abs_time s time then
    let data := create_rw_data order data_point data
    { s with _prev_data_sent_time := abs_time s time,
             _uart_connection := s._uart_connection ++ [data] }
  else s

/-! ## Environment of the callbacks -/

/-- The members after the constructor: `_keep_running(true)` and
`_prev_data_sent_time = _absolute_start_time + 10.0`; nothing written or replied yet.
The configured values and the provider created by the factory are the arguments. -/
def GenericRWHardwareModel.constructed (absolute_start_time : ℚ)
    (sim_microseconds_per_tick : Int) (period : ℚ) (sdp : SimIDataProvider) :
    GenericRWHardwareModel :=
  { _keep_running := true,
    _absolute_start_time := absolute_start_time,
    _sim_microseconds_per_tick := sim_microseconds_per_tick,
    _period := period,
    _prev_data_sent_time := absolute_start_time + 10,
    _sdp := sdp,
    _uart_connection := [],
    _command_node := [] }

/-- A provider with `send_command_to_socket` whose data point reports momentum `0.1`
(bit pattern `0x3FB999999999999A`). -/
def socket_provider : SimIDataProvider :=
  { is_42socket_provider := true, socket := [], data_point := ⟨0x3FB999999999999A⟩ }

/-- A provider of another class: the downcast to the socket provider yields null. -/
def plain_provider : SimIDataProvider :=
  { is_42socket_provider := false, socket := [], data_point := ⟨0x3FB999999999999A⟩ }

/-- A freshly constructed model: start time `0`, ticks of `0.1` s, period `1` s. -/
def rw_sim : GenericRWHardwareModel :=
  GenericRWHardwareModel.constructed 0 100000 1 socket_provider

/-- The same model on a provider without the actuation capability. -/
def rw_sim_plain : GenericRWHardwareModel :=
  GenericRWHardwareModel.constructed 0 100000 1 plain_provider

/-! ## Notions used to state the properties -/

/-- Two bytes that are equal, or the lower-case and upper-case form of one ASCII letter. -/
def same_up_to_case (a b : Nat) : Bool :=
  a == b || (decide (97 ≤ a ∧ a ≤ 122) && a - 32 == b)
    || (decide (97 ≤ b ∧ b ≤ 122) && b - 32 == a)

/-- Two texts that differ only in the case of ASCII letters: same length, and position by
position the same byte up to letter case. -/
def differ_only_in_case : List Nat → List Nat → Bool
  | [], [] => true
  | a :: as, b :: bs => same_up_to_case a b && differ_only_in_case as bs
  | _, _ => false

/-- One callback invocation by the bus: a command message, bytes read on the UART, or a
time tick. -/
inductive Callback where
  | command (msg : Message)
  | uart_read (in_data : List Nat)
  | time_tick (time : Int)

/-- The callback the event is bound to, run on the model. -/
def invoke (order : ByteOrder) (s : GenericRWHardwareModel) :
    Callback → Option GenericRWHardwareModel
  | Callback.command msg => command_callback s msg
  | Callback.uart_read in_data => some (uart_read_callback s in_data)
  | Callback.time_tick time => some (send_periodic_data order s time)

/-- A sequence of callback invocations, one after the other; `none` once one faults. -/
def invoke_all (order : ByteOrder) (s : GenericRWHardwareModel) :
    List Callback → Option GenericRWHardwareModel
  | [] => some s
  | c :: cs =>
    match invoke order s c with
    | none => none
    | some s' => invoke_all order s' cs

/-- The 64-bit pattern read back from eight bytes of memory on a host of the given byte
order: the inverse of storing a `double` and reading `u_mom[0..7]`. -/
def read_back (order : ByteOrder) (frame : List Nat) : Nat :=
  match order with
  | ByteOrder.little_endian =>
    (List.range 8).foldr (fun i acc => acc + frame.getD i 0 * 256 ^ i) 0
  | ByteOrder.big_endian =>
    (List.range 8).foldr (fun i acc => acc + frame.getD i 0 * 256 ^ (7 - i)) 0

/-- The tick granularity in seconds: `_sim_microseconds_per_tick / 1000000.0`. -/
def tick_seconds (s : GenericRWHardwareModel) : ℚ :=
  (s._sim_microseconds_per_tick : ℚ) / 1000000

/-- Whether `send_periodic_data(time)` wrote on the UART: the record of writes grew. -/
def wrote_frame (order : ByteOrder) (s : GenericRWHardwareModel) (time : Int) : Bool :=
  (send_periodic_data order s time)._uart_connection.length != s._uart_connection.length

/-- The time-tick callback invoked once for each of the `n` consecutive tick counts
`time, time + 1, ...`: the simulated times (`abs_time`) of the calls that wrote a frame,
in order. -/
def frame_times (order : ByteOrder) (s : GenericRWHardwareModel) (time : Int) :
    Nat → List ℚ
  | 0 => []
  | n + 1 =>
    if wrote_frame order s time then
      abs_time s time :: frame_times order (send_periodic_data order s time) (time + 1) n
    else
      frame_times order (send_periodic_data order s time) (time + 1) n

/-- The gap `b - a` between two send times differs from the period `P` by at most one
tick `g`, and equals `P` when `P` is a whole number `k ≥ 1` of ticks. -/
def gap_within_tick (P g a b : ℚ) : Prop :=
  |(b - a) - P| ≤ g ∧ ∀ k : Nat, 1 ≤ k → P = k * g → b - a = P

/-- A scheduler with period `1.0` s and ticks of `0.1` s, at the given start time and
previous send time. -/
def scheduler (absolute_start_time prev_data_sent_time : ℚ) : GenericRWHardwareModel :=
  { rw_sim with _absolute_start_time := absolute_start_time,
                _prev_data_sent_time := prev_data_sent_time }

/-! ## IEEE 754 binary64 arithmetic

A `double` is its 64-bit pattern: sign bit, 11 exponent bits, 52 fraction bits.  Every
finite `double` is a whole number of units of `2^-1074`, so finite arithmetic is integer
arithmetic on units followed by one rounding.  An operation that yields a NaN yields
the quiet NaN `0x7FF8000000000000`; in `send_periodic_data` a NaN is only compared,
never stored or written, so which NaN it is cannot be observed. -/

/-- The sign bit of a pattern is set. -/
def f64_sign (b : Nat) : Bool := b / 2 ^ 63 % 2 == 1

/-- The biased exponent field of a pattern. -/
def f64_expo (b : Nat) : Nat := b / 2 ^ 52 % 2048

/-- The fraction field of a pattern. -/
def f64_frac (b : Nat) : Nat := b % 2 ^ 52

/-- The pattern is a NaN. -/
def f64_is_nan (b : Nat) : Bool := f64_expo b == 2047 && f64_frac b != 0

/-- The pattern is an infinity. -/
def f64_is_inf (b : Nat) : Bool := f64_expo b == 2047 && f64_frac b == 0

/-- The magnitude of a finite pattern, in units of `2^-1074`: the fraction for a
subnormal, the significand shifted by the exponent otherwise. -/
def f64_units (b : Nat) : Nat :=
  if f64_expo b = 0 then f64_frac b else (2 ^ 52 + f64_frac b) <<< (f64_expo b - 1)

/-- The value of a finite pattern, in units of `2^-1074`. -/
def f64_signed_units (b : Nat) : Int :=
  if f64_sign b then - (f64_units b : Int) else (f64_units b : Int)

/-- A magnitude pattern (below `2^63`) with the sign bit put on. -/
def f64_with_sign (neg : Bool) (mag : Nat) : Nat := if neg then 2 ^ 63 + mag else mag

/-- The quiet NaN produced by an invalid operation. -/
def f64_nan : Nat := 0x7FF8000000000000

/-- The pattern of `+infinity`. -/
def f64_infinity : Nat := 0x7FF0000000000000

/-- The floor of the base-2 logarithm (`0` at `0`), by binary search over the shift
widths; exact below `2^4096`, which covers every operand of `f64_round`. -/
def f64_log2 (n : Nat) : Nat :=
  ([2048, 1024, 512, 256, 128, 64, 32, 16, 8, 4, 2, 1].foldl
    (fun (p : Nat × Nat) (w : Nat) => if p.1 >>> w = 0 then p else (p.1 >>> w, p.2 + w))
    (n, 0)).2

/-- The `double` nearest to the magnitude `num / den` units of `2^-1074`, ties to even,
with the given sign: `k` is the number of low bits that do not fit in a 53-bit
significand, the quotient by `den * 2^k` is rounded to an integer, and `k * 2^52` plus
that integer is the pattern (a carry out of the significand moves into the exponent
field); a pattern that reaches the exponent 2047 is an infinity. -/
def f64_round (neg : Bool) (num den : Nat) : Nat :=
  let n := num / den
  let k := (f64_log2 n + 1) - 53
  let d := den <<< k
  let q := num / d
  let r := num % d
  let q := if d < 2 * r ∨ (2 * r = d ∧ q % 2 = 1) then q + 1 else q
  f64_with_sign neg (min (k * 2 ^ 52 + q) f64_infinity)

/-- The conversion `double(n)` of an `int64_t`. -/
def f64_of_int64 (n : Int) : Nat := f64_round (decide (n < 0)) (n.natAbs <<< 1074) 1

/-- The sum `x + y` of two `double`s. -/
def f64_add (x y : Nat) : Nat :=
  if f64_is_nan x || f64_is_nan y then f64_nan
  else if f64_is_inf x then
    (if f64_is_inf y && (f64_sign x != f64_sign y) then f64_nan else x)
  else if f64_is_inf y then y
  else
    let u := f64_signed_units x + f64_signed_units y
    if u = 0 then f64_with_sign (f64_sign x && f64_sign y) 0
    else f64_round (decide (u < 0)) u.natAbs 1

/-- The negation `-x`: the sign bit flipped. -/
def f64_neg (x : Nat) : Nat := if f64_sign x then x - 2 ^ 63 else x + 2 ^ 63

/-- The difference `x - y` of two `double`s. -/
def f64_sub (x y : Nat) : Nat := f64_add x (f64_neg y)

/-- The quotient `x / y` of two `double`s. -/
def f64_div (x y : Nat) : Nat :=
  let neg := f64_sign x != f64_sign y
  if f64_is_nan x || f64_is_nan y then f64_nan
  else if f64_is_inf x then
    (if f64_is_inf y then f64_nan else f64_with_sign neg f64_infinity)
  else if f64_is_inf y then f64_with_sign neg 0
  else if f64_units y = 0 then
    (if f64_units x = 0 then f64_nan else f64_with_sign neg f64_infinity)
  else f64_round neg (f64_units x <<< 1074) (f64_units y)

/-- The place of a pattern that is not a NaN in the order of the `double`s; both zeros
have place `0`. -/
def f64_key (b : Nat) : Int :=
  if f64_sign b then - ((b % 2 ^ 63 : Nat) : Int) else ((b % 2 ^ 63 : Nat) : Int)

/-- The comparison `x < y` of two `double`s: false when either is a NaN. -/
def f64_lt (x y : Nat) : Bool :=
  !f64_is_nan x && !f64_is_nan y && decide (f64_key x < f64_key y)

/-- The literal `1000000.0`. -/
def f64_1000000 : Nat := 0x412E848000000000

/-- The literal `10.0`. -/
def f64_10 : Nat := 0x4024000000000000

/-- The value an `int64_t` expression takes: two's-complement wrap-around. -/
def wrap_int64 (x : Int) : Int := (x + 2 ^ 63) % 2 ^ 64 - 2 ^ 63

/-! ## The telemetry scheduler as the machine computes it -/

namespace Binary64

/-- The members of `GenericRWHardwareModel`, the `double`s being binary64 patterns and
`_sim_microseconds_per_tick` an `int64_t`.  The records `_uart_connection`,
`_command_node` and `_sdp` are as in the exact reading. -/
structure GenericRWHardwareModel where
  _keep_running : Bool
  _absolute_start_time : Nat
  _sim_microseconds_per_tick : Int
  _period : Nat
  _prev_data_sent_time : Nat
  _sdp : SimIDataProvider
  _uart_connection : List (List Nat)
  _command_node : List (List Nat)
deriving DecidableEq, Repr

/-- The local `abs_time` of `send_periodic_data`:
`_absolute_start_time + (double(time * _sim_microseconds_per_tick)) / 1000000.0`. -/
def abs_time (s : GenericRWHardwareModel) (time : Int) : Nat :=
  f64_add s._absolute_start_time
    (f64_div (f64_of_int64 (wrap_int64 (time * s._sim_microseconds_per_tick))) f64_1000000)

/-- The local `next_time` of `send_periodic_data`:
`_prev_data_sent_time + _period - (_sim_microseconds_per_tick / 1000000.0) / 2`. -/
def next_time (s : GenericRWHardwareModel) : Nat :=
  f64_sub (f64_add s._prev_data_sent_time s._period)
    (f64_div (f64_div (f64_of_int64 s._sim_microseconds_per_tick) f64_1000000)
      (f64_of_int64 2))

/-- The call `send_periodic_data(time)`. -/
def send_periodic_data (order : ByteOrder) (s : GenericRWHardwareModel) (time : Int) :
    GenericRWHardwareModel :=
  let data_point := s._sdp.data_point
  let data : List Nat := []
  let abs_time := abs_time s time
  let next_time := next_time s
  if f64_lt next_time abs_time then
    let data := create_rw_data order data_point data
    { s with _prev_data_sent_time := abs_time,
             _uart_connection := s._uart_connection ++ [data] }
  else s

/-- The members after the constructor: `_keep_running(true)` and
`_prev_data_sent_time = _absolute_start_time + 10.0`. -/
def constructed (absolute_start_time : Nat) (sim_microseconds_per_tick : Int)
    (period : Nat) (sdp : SimIDataProvider) : GenericRWHardwareModel :=
  { _keep_running := true,
    _absolute_start_time := absolute_start_time,
    _sim_microseconds_per_tick := sim_microseconds_per_tick,
    _period := period,
    _prev_data_sent_time := f64_add absolute_start_time f64_10,
    _sdp := sdp,
    _uart_connection := [],
    _command_node := [] }

/-- A model with ticks of `0.1` s (`100000` microseconds) at the given start time,
period and previous send time. -/
def scheduler (absolute_start_time period prev_data_sent_time : Nat) :
    GenericRWHardwareModel :=
  { constructed absolute_start_time 100000 period socket_provider with
    _prev_data_sent_time := prev_data_sent_time }

/-- The time-tick callback invoked once for each of the `n` consecutive tick counts
`time, time + 1, ...`: the tick counts of the calls that wrote on the UART. -/
def sent_ticks (order : ByteOrder) (s : GenericRWHardwareModel) (time : Int) :
    Nat → List Int
  | 0 => []
  | n + 1 =>
    if (send_periodic_data order s time)._uart_connection.length
        != s._uart_connection.length then
      time :: sent_ticks order (send_periodic_data order s time) (time + 1) n
    else
      sent_ticks order (send_periodic_data order s time) (time + 1) n

end Binary64

/-! ## Helper lemmas on the command dispatch -/

theorem STOP_RWSIM_length : STOP_RWSIM.length = 10 := by decide

theorem TORQUE_length : TORQUE.length = 6 := by decide

/-- Comparing `substr(0,11)` with the ten-character token succeeds exactly on the
ten-character command. -/
theorem substr_11_eq_STOP_RWSIM (command : List Nat) :
    substr command 11 = STOP_RWSIM ↔ command = STOP_RWSIM := by
  unfold substr
  constructor
  · intro h
    have hl : (command.take 11).length = 10 := by rw [h]; exact STOP_RWSIM_length
    rw [List.length_take] at hl
    have hc : command.length ≤ 11 := by omega
    rw [List.take_of_length_le hc] at h
    exact h
  · intro h
    subst h
    decide

/-- Comparing `substr(0,6)` with the six-character token is a prefix test. -/
theorem substr_6_eq_TORQUE (command : List Nat) :
    substr command 6 = TORQUE ↔ TORQUE <+: command := by
  unfold substr
  rw [List.prefix_iff_eq_take, TORQUE_length]
  exact eq_comm

theorem STOP_RWSIM_not_TORQUE_prefixed (command : List Nat) (h : command = STOP_RWSIM) :
    ¬ TORQUE <+: command := by
  subst h
  decide

theorem TORQUE_prefixed_ne_STOP_RWSIM (command : List Nat) (h : TORQUE <+: command) :
    command ≠ STOP_RWSIM := fun hc => STOP_RWSIM_not_TORQUE_prefixed command hc h

/-- First branch of `command_callback`. -/
theorem command_callback_stop (s : GenericRWHardwareModel) (msg : Message)
    (h : to_upper (c_str msg.buffer) = STOP_RWSIM) :
    command_callback s msg =
      some { s with _keep_running := false,
                    _command_node := s._command_node ++ [response_stopping] } := by
  have h11 := (substr_11_eq_STOP_RWSIM _).2 h
  simp only [command_callback, send_reply_message_async, h11, if_true]

/-- Second branch of `command_callback`, the downcast succeeding. -/
theorem command_callback_torque (s : GenericRWHardwareModel) (msg : Message)
    (h : TORQUE <+: to_upper (c_str msg.buffer))
    (hp : s._sdp.is_42socket_provider = true) :
    command_callback s msg =
      some { s with _sdp := { s._sdp with socket := s._sdp.socket ++ [torque_command] },
                    _command_node := s._command_node ++ [response_torquing] } := by
  have h11 : ¬ substr (to_upper (c_str msg.buffer)) 11 = STOP_RWSIM := fun hc =>
    TORQUE_prefixed_ne_STOP_RWSIM _ h ((substr_11_eq_STOP_RWSIM _).1 hc)
  have h6 := (substr_6_eq_TORQUE _).2 h
  simp only [command_callback, send_reply_message_async, send_command_to_socket, h11, h6,
    hp, if_true, if_false]

/-- Second branch of `command_callback`, the downcast yielding null. -/
theorem command_callback_torque_null (s : GenericRWHardwareModel) (msg : Message)
    (h : TORQUE <+: to_upper (c_str msg.buffer))
    (hp : s._sdp.is_42socket_provider = false) :
    command_callback s msg = none := by
  have h11 : ¬ substr (to_upper (c_str msg.buffer)) 11 = STOP_RWSIM := fun hc =>
    TORQUE_prefixed_ne_STOP_RWSIM _ h ((substr_11_eq_STOP_RWSIM _).1 hc)
  have h6 := (substr_6_eq_TORQUE _).2 h
  simp only [command_callback, send_command_to_socket, h11, h6, hp, if_true, if_false]
  rfl

/-- Neither branch of `command_callback`. -/
theorem command_callback_other (s : GenericRWHardwareModel) (msg : Message)
    (hs : to_upper (c_str msg.buffer) ≠ STOP_RWSIM)
    (ht : ¬ TORQUE <+: to_upper (c_str msg.buffer)) :
    command_callback s msg =
      some { s with _command_node := s._command_node ++ [response_invalid] } := by
  have h11 : ¬ substr (to_upper (c_str msg.buffer)) 11 = STOP_RWSIM := fun hc =>
    hs ((substr_11_eq_STOP_RWSIM _).1 hc)
  have h6 : ¬ substr (to_upper (c_str msg.buffer)) 6 = TORQUE := fun hc =>
    ht ((substr_6_eq_TORQUE _).1 hc)
  simp only [command_callback, send_reply_message_async, h11, h6, if_false]

/-- Folding maps bytes that are the same up to letter case to the same byte. -/
theorem toupper_eq_of_same_up_to_case (a b : Nat) (h : same_up_to_case a b = true) :
    toupper a = toupper b := by
  simp only [same_up_to_case, Bool.or_eq_true, Bool.and_eq_true, beq_iff_eq,
    decide_eq_true_eq] at h
  unfold toupper
  split_ifs <;> omega

/-- Texts that differ only in letter case fold to the same text. -/
theorem to_upper_eq_of_differ_only_in_case :
    ∀ (a b : List Nat), differ_only_in_case a b = true → to_upper a = to_upper b
  | [], [], _ => rfl
  | [], _ :: _, h => by simp [differ_only_in_case] at h
  | _ :: _, [], h => by simp [differ_only_in_case] at h
  | a :: as, b :: bs, h => by
    simp only [differ_only_in_case, Bool.and_eq_true] at h
    have h1 := toupper_eq_of_same_up_to_case a b h.1
    have h2 := to_upper_eq_of_differ_only_in_case as bs h.2
    simp only [to_upper, List.map_cons] at h2 ⊢
    rw [h1, h2]

/-- `command_callback` reads the message only through the folded command text. -/
theorem command_callback_congr (s : GenericRWHardwareModel) (m1 m2 : Message)
    (h : to_upper (c_str m1.buffer) = to_upper (c_str m2.buffer)) :
    command_callback s m1 = command_callback s m2 := by
  simp only [command_callback, h]

/-- What `command_callback` does to `_keep_running` when it completes. -/
theorem command_callback_keep_running (s s' : GenericRWHardwareModel) (msg : Message)
    (h : command_callback s msg = some s') :
    (to_upper (c_str msg.buffer) = STOP_RWSIM ∧ s'._keep_running = false) ∨
    (to_upper (c_str msg.buffer) ≠ STOP_RWSIM ∧ s'._keep_running = s._keep_running) := by
  by_cases hs : to_upper (c_str msg.buffer) = STOP_RWSIM
  · rw [command_callback_stop s msg hs] at h
    cases h
    exact Or.inl ⟨hs, rfl⟩
  · right
    refine ⟨hs, ?_⟩
    by_cases ht : TORQUE <+: to_upper (c_str msg.buffer)
    · cases hp : s._sdp.is_42socket_provider
      · rw [command_callback_torque_null s msg ht hp] at h
        cases h
      · rw [command_callback_torque s msg ht hp] at h
        cases h
        rfl
    · rw [command_callback_other s msg hs ht] at h
      cases h
      rfl

/-- The cases in which `command_callback` completes, and the one reply it then sends. -/
theorem command_callback_completes (s : GenericRWHardwareModel) (msg : Message)
    (h : s._sdp.is_42socket_provider = true ∨ ¬ TORQUE <+: to_upper (c_str msg.buffer)) :
    ∃ s', command_callback s msg = some s' ∧
      (s'._command_node = s._command_node ++ [response_stopping] ∨
       s'._command_node = s._command_node ++ [response_torquing] ∨
       s'._command_node = s._command_node ++ [response_invalid]) := by
  by_cases hs : to_upper (c_str msg.buffer) = STOP_RWSIM
  · exact ⟨_, command_callback_stop s msg hs, Or.inl rfl⟩
  · by_cases ht : TORQUE <+: to_upper (c_str msg.buffer)
    · rcases h with hp | hn
      · exact ⟨_, command_callback_torque s msg ht hp, Or.inr (Or.inl rfl)⟩
      · exact absurd ht hn
    · exact ⟨_, command_callback_other s msg hs ht, Or.inr (Or.inr rfl)⟩

theorem uart_read_callback_keep_running (s : GenericRWHardwareModel) (in_data : List Nat) :
    (uart_read_callback s in_data)._keep_running = s._keep_running := rfl

theorem send_periodic_data_keep_running (order : ByteOrder) (s : GenericRWHardwareModel)
    (time : Int) : (send_periodic_data order s time)._keep_running = s._keep_running := by
  unfold send_periodic_data
  split_ifs <;> rfl

/-- No callback sets `_keep_running` back to true. -/
theorem invoke_keeps_stopped (order : ByteOrder) (s s' : GenericRWHardwareModel)
    (c : Callback) (hs : s._keep_running = false) (h : invoke order s c = some s') :
    s'._keep_running = false := by
  cases c with
  | command msg =>
    rcases command_callback_keep_running s s' msg h with ⟨_, h2⟩ | ⟨_, h2⟩
    · exact h2
    · rw [h2, hs]
  | uart_read in_data =>
    simp only [invoke, Option.some.injEq] at h
    rw [← h, uart_read_callback_keep_running, hs]
  | time_tick time =>
    simp only [invoke, Option.some.injEq] at h
    rw [← h, send_periodic_data_keep_running, hs]

theorem invoke_all_keeps_stopped (order : ByteOrder) :
    ∀ (cs : List Callback) (s s' : GenericRWHardwareModel),
      s._keep_running = false → invoke_all order s cs = some s' → s'._keep_running = false
  | [], s, s', hs, h => by
    simp only [invoke_all, Option.some.injEq] at h
    rw [← h, hs]
  | c :: cs, s, s', hs, h => by
    simp only [invoke_all] at h
    cases hc : invoke order s c with
    | none => rw [hc] at h; cases h
    | some s1 =>
      rw [hc] at h
      exact invoke_all_keeps_stopped order cs s1 s' (invoke_keeps_stopped order s s1 c hs hc) h

/-! ## Claims on the command channel -/

/-- C1 (evaluation of the code): the command text "STOP RWSIM NOW PLEASE" starts with
the token "STOP RWSIM", yet `command_callback` leaves `_keep_running` as it was and
answers with the invalid-command reply, which does not contain "STOPPING"; only the
bare text "STOP RWSIM" stops the model. -/
theorem stop_with_trailing_text_is_not_a_stop :
    ascii "STOP RWSIM" <+: to_upper (c_str (ascii "STOP RWSIM NOW PLEASE")) ∧
    (∀ s : GenericRWHardwareModel,
      command_callback s ⟨ascii "STOP RWSIM NOW PLEASE"⟩ =
        some { s with _command_node := s._command_node ++ [response_invalid] }) ∧
    ¬ ascii "STOPPING" <:+: response_invalid ∧
    (∀ s : GenericRWHardwareModel,
      command_callback s ⟨ascii "STOP RWSIM"⟩ =
        some { s with _keep_running := false,
                      _command_node := s._command_node ++ [response_stopping] }) ∧
    ascii "STOPPING" <:+: response_stopping := by
  refine ⟨by decide, ?_, by decide, ?_, by decide⟩
  · intro s
    exact command_callback_other s _ (by decide) (by decide)
  · intro s
    exact command_callback_stop s _ (by decide)

/-- C2: when the folded command text starts with "TORQUE" and the provider is a socket
provider, `command_callback` completes, hands the provider the one command
"SC[0].AC.Whl[0].Tcmd = 0.1", leaves `_keep_running` unchanged and sends one reply, which
ends with "TORQUING REACTION WHEEL". -/
theorem torque_command_actuates (s : GenericRWHardwareModel) (msg : Message)
    (h : ascii "TORQUE" <+: to_upper (c_str msg.buffer))
    (hp : s._sdp.is_42socket_provider = true) :
    ∃ s', command_callback s msg = some s' ∧
      s'._sdp.socket = s._sdp.socket ++ [ascii "SC[0].AC.Whl[0].Tcmd = 0.1"] ∧
      s'._keep_running = s._keep_running ∧
      ∃ reply, s'._command_node = s._command_node ++ [reply] ∧
        ascii "TORQUING REACTION WHEEL" <:+ reply := by
  refine ⟨_, command_callback_torque s msg h hp, rfl, rfl, response_torquing, rfl, ?_⟩
  decide

theorem torque_command_actuates_witness :
    (ascii "TORQUE" <+: to_upper (c_str (ascii "torque wheel 0"))) ∧
    rw_sim._sdp.is_42socket_provider = true ∧
    ∃ s', command_callback rw_sim ⟨ascii "torque wheel 0"⟩ = some s' ∧
      s'._sdp.socket = rw_sim._sdp.socket ++ [ascii "SC[0].AC.Whl[0].Tcmd = 0.1"] ∧
      s'._keep_running = rw_sim._keep_running ∧
      ∃ reply, s'._command_node = rw_sim._command_node ++ [reply] ∧
        ascii "TORQUING REACTION WHEEL" <:+ reply :=
  ⟨by decide, by decide,
    torque_command_actuates rw_sim ⟨ascii "torque wheel 0"⟩ (by decide) (by decide)⟩

/-- C3 (evaluation of the code): on the empty command text, which starts with neither
token, `command_callback` changes nothing but the replies, and the reply it sends ends
with "INVALID COMMAND! (Try STOP FOOSIM)": it does not end with
"INVALID COMMAND! (Try STOP RWSIM)" and nowhere contains the token "STOP RWSIM". -/
theorem invalid_reply_names_foosim :
    (∀ s : GenericRWHardwareModel,
      command_callback s ⟨[]⟩ =
        some { s with _command_node := s._command_node ++ [response_invalid] }) ∧
    ascii "INVALID COMMAND! (Try STOP FOOSIM)" <:+ response_invalid ∧
    ¬ ascii "INVALID COMMAND! (Try STOP RWSIM)" <:+ response_invalid ∧
    ¬ ascii "STOP RWSIM" <:+: response_invalid := by
  refine ⟨?_, by decide, by decide, by decide⟩
  intro s
  exact command_callback_other s _ (by decide) (by decide)

/-- C4: two messages whose command texts differ only in the case of ASCII letters make
`command_callback` produce the same outcome (same members, same provider traffic, same
reply, or the same fault); and "stop rwsim", "STOP RWSIM" and "Stop RwSim" each make it
complete with `_keep_running` false. -/
theorem command_dispatch_ignores_case (s : GenericRWHardwareModel) (m1 m2 : Message)
    (h : differ_only_in_case (c_str m1.buffer) (c_str m2.buffer) = true) :
    command_callback s m1 = command_callback s m2 ∧
    ∀ text ∈ [ascii "stop rwsim", ascii "STOP RWSIM", ascii "Stop RwSim"],
      ∃ s', command_callback s ⟨text⟩ = some s' ∧ s'._keep_running = false := by
  refine ⟨command_callback_congr s m1 m2 (to_upper_eq_of_differ_only_in_case _ _ h), ?_⟩
  intro text ht
  have hfold : to_upper (c_str text) = STOP_RWSIM := by
    simp only [List.mem_cons, List.mem_singleton, List.not_mem_nil, or_false] at ht
    rcases ht with rfl | rfl | rfl <;> decide
  exact ⟨_, command_callback_stop s ⟨text⟩ hfold, rfl⟩

theorem command_dispatch_ignores_case_witness :
    differ_only_in_case (c_str (ascii "Torque Now")) (c_str (ascii "tORQUE nOW")) = true ∧
    (command_callback rw_sim ⟨ascii "Torque Now"⟩ =
        command_callback rw_sim ⟨ascii "tORQUE nOW"⟩ ∧
      ∀ text ∈ [ascii "stop rwsim", ascii "STOP RWSIM", ascii "Stop RwSim"],
        ∃ s', command_callback rw_sim ⟨text⟩ = some s' ∧ s'._keep_running = false) :=
  ⟨by decide,
    command_dispatch_ignores_case rw_sim ⟨ascii "Torque Now"⟩ ⟨ascii "tORQUE nOW"⟩
      (by decide)⟩

/-- C7 (counterexample): on the freshly constructed model, the serial-read callback
given "STOP RWSIM" leaves `_keep_running` true, and given "TORQUE" it writes back the
bytes "TORQUE", which do not contain "TORQUING", and hands the provider nothing. -/
theorem uart_read_callback_does_not_interpret :
    (uart_read_callback rw_sim (ascii "STOP RWSIM"))._keep_running = true ∧
    (uart_read_callback rw_sim (ascii "TORQUE"))._uart_connection = [ascii "TORQUE"] ∧
    ¬ ascii "TORQUING" <:+: ascii "TORQUE" ∧
    (uart_read_callback rw_sim (ascii "TORQUE"))._sdp.socket = [] := by
  refine ⟨rfl, rfl, by decide, rfl⟩

/-- C7 (amended): for every byte buffer, the serial-read callback writes back on the
transport exactly the bytes it received and changes no other member: `_keep_running`,
the provider, the replies on the command node and the scheduler are as before. -/
theorem uart_read_callback_echoes (s : GenericRWHardwareModel) (in_data : List Nat) :
    (uart_read_callback s in_data)._uart_connection = s._uart_connection ++ [in_data] ∧
    (uart_read_callback s in_data)._keep_running = s._keep_running ∧
    (uart_read_callback s in_data)._sdp = s._sdp ∧
    (uart_read_callback s in_data)._command_node = s._command_node ∧
    (uart_read_callback s in_data)._prev_data_sent_time = s._prev_data_sent_time ∧
    (uart_read_callback s in_data)._period = s._period ∧
    (uart_read_callback s in_data)._absolute_start_time = s._absolute_start_time ∧
    (uart_read_callback s in_data)._sim_microseconds_per_tick =
      s._sim_microseconds_per_tick :=
  ⟨rfl, rfl, rfl, rfl, rfl, rfl, rfl, rfl⟩

/-- C8 (evaluation of the code): on a provider for which the downcast to the socket
provider yields null, the command "TORQUE" makes `command_callback` call
`send_command_to_socket` through the null pointer: the actuation is not skipped and the
call does not reach the reply. -/
theorem torque_without_socket_provider_faults :
    rw_sim_plain._sdp.is_42socket_provider = false ∧
    ascii "TORQUE" <+: to_upper (c_str (ascii "TORQUE")) ∧
    command_callback rw_sim_plain ⟨ascii "TORQUE"⟩ = none := by
  refine ⟨rfl, by decide, ?_⟩
  exact command_callback_torque_null rw_sim_plain _ (by decide) rfl

/-- C9: `_keep_running` is changed by no callback other than `command_callback` on a
command text whose folding starts with "STOP RWSIM", and then only to false.  On every
other command text ("STOPPER", the empty text, every text shorter than 10 characters)
a completed `command_callback` leaves it as it was, and it completes whenever the text
is not a torque command sent to a provider without the socket capability; so do
`uart_read_callback` and `send_periodic_data`.  Hence, once false, it stays false
through every sequence of callbacks. -/
theorem only_stop_command_stops (order : ByteOrder) (s : GenericRWHardwareModel) :
    (∀ msg s', command_callback s msg = some s' →
      s'._keep_running = s._keep_running ∨
      (ascii "STOP RWSIM" <+: to_upper (c_str msg.buffer) ∧ s'._keep_running = false)) ∧
    (∀ msg, ¬ ascii "STOP RWSIM" <+: to_upper (c_str msg.buffer) →
      (∀ s', command_callback s msg = some s' → s'._keep_running = s._keep_running) ∧
      (s._sdp.is_42socket_provider = true ∨
          ¬ ascii "TORQUE" <+: to_upper (c_str msg.buffer) →
        ∃ s', command_callback s msg = some s' ∧ s'._keep_running = s._keep_running)) ∧
    (∀ text ∈ [ascii "STOPPER", []],
      ∃ s', command_callback s ⟨text⟩ = some s' ∧ s'._keep_running = s._keep_running) ∧
    (∀ msg, (c_str msg.buffer).length < 10 →
      ∀ s', command_callback s msg = some s' → s'._keep_running = s._keep_running) ∧
    (∀ in_data, (uart_read_callback s in_data)._keep_running = s._keep_running) ∧
    (∀ time, (send_periodic_data order s time)._keep_running = s._keep_running) ∧
    (∀ cs s', s._keep_running = false → invoke_all order s cs = some s' →
      s'._keep_running = false) := by
  have frame : ∀ msg, ¬ ascii "STOP RWSIM" <+: to_upper (c_str msg.buffer) →
      ∀ s', command_callback s msg = some s' → s'._keep_running = s._keep_running := by
    intro msg hn s' h
    rcases command_callback_keep_running s s' msg h with ⟨h1, _⟩ | ⟨_, h2⟩
    · exact absurd (h1 ▸ List.prefix_refl _) hn
    · exact h2
  refine ⟨?_, ?_, ?_, ?_, uart_read_callback_keep_running s,
    send_periodic_data_keep_running order s, ?_⟩
  · intro msg s' h
    rcases command_callback_keep_running s s' msg h with ⟨h1, h2⟩ | ⟨_, h2⟩
    · exact Or.inr ⟨h1 ▸ List.prefix_refl _, h2⟩
    · exact Or.inl h2
  · intro msg hn
    refine ⟨frame msg hn, ?_⟩
    intro hc
    obtain ⟨s', hs', _⟩ := command_callback_completes s msg hc
    exact ⟨s', hs', frame msg hn s' hs'⟩
  · intro text ht
    simp only [List.mem_cons, List.mem_singleton, List.not_mem_nil, or_false] at ht
    rcases ht with rfl | rfl
    · exact ⟨_, command_callback_other s _ (by decide) (by decide), rfl⟩
    · exact ⟨_, command_callback_other s _ (by decide) (by decide), rfl⟩
  · intro msg hl
    apply frame msg
    intro hp
    have h10 := hp.length_le
    simp only [to_upper, List.length_map] at h10
    have : (ascii "STOP RWSIM").length = 10 := by decide
    omega
  · intro cs s' hs h
    exact invoke_all_keeps_stopped order cs s s' hs h

/-! ## Helper lemmas on the telemetry path -/

theorem send_periodic_data_of_due (order : ByteOrder) (s : GenericRWHardwareModel)
    (time : Int) (h : next_time s < abs_time s time) :
    send_periodic_data order s time =
      { s with _prev_data_sent_time := abs_time s time,
               _uart_connection :=
                 s._uart_connection ++ [create_rw_data order s._sdp.data_point []] } := by
  simp only [send_periodic_data, h, if_true]

theorem send_periodic_data_of_not_due (order : ByteOrder) (s : GenericRWHardwareModel)
    (time : Int) (h : ¬ next_time s < abs_time s time) :
    send_periodic_data order s time = s := by
  simp only [send_periodic_data, h, if_false]

theorem create_rw_data_length (order : ByteOrder) (data_point : GenericRWDataPoint) :
    (create_rw_data order data_point []).length = 8 := rfl

theorem wrote_frame_iff (order : ByteOrder) (s : GenericRWHardwareModel) (time : Int) :
    wrote_frame order s time = true ↔ next_time s < abs_time s time := by
  unfold wrote_frame
  by_cases h : next_time s < abs_time s time
  · rw [send_periodic_data_of_due order s time h]
    simp [h]
  · rw [send_periodic_data_of_not_due order s time h]
    simp [h]

theorem abs_time_sub (s : GenericRWHardwareModel) (a b : Int) :
    abs_time s a - abs_time s b = ((a - b : Int) : ℚ) * tick_seconds s := by
  unfold abs_time tick_seconds
  push_cast
  ring

/-- The arithmetic of one inter-send gap: the previous frame went out at `p0`, the
next at `t`, `d ≥ 1` ticks of length `g` later, at the first tick past `p0 + P - g/2`. -/
theorem gap_within_tick_of_first_due (P g p0 t : ℚ) (d : Int) (hg : 0 < g) (hP : 0 ≤ P)
    (hd : t - p0 = (d : ℚ) * g) (hd1 : 1 ≤ d)
    (hprev : d = 1 ∨ t - g ≤ p0 + P - g / 2)
    (hdue : p0 + P - g / 2 < t) :
    gap_within_tick P g p0 t := by
  constructor
  · rw [abs_le]
    rcases hprev with h1 | h2
    · subst h1
      have : t - p0 = g := by rw [hd]; push_cast; ring
      constructor <;> linarith
    · constructor <;> linarith
  · intro k hk hPk
    have hlow : (k : ℚ) - 1 / 2 < (d : ℚ) := by
      by_contra hc
      push_neg at hc
      have := mul_le_mul_of_nonneg_right hc hg.le
      linarith
    have hkd : (k : Int) ≤ d := by
      have h2 : ((k : Int) : ℚ) < ((d + 1 : Int) : ℚ) := by
        push_cast
        linarith
      have h3 : (k : Int) < d + 1 := by exact_mod_cast h2
      omega
    have hdk : d ≤ (k : Int) := by
      rcases hprev with h1 | h2
      · subst h1
        exact_mod_cast hk
      · have hup : (d : ℚ) - 1 ≤ (k : ℚ) - 1 / 2 := by
          by_contra hc
          push_neg at hc
          have := mul_lt_mul_of_pos_right hc hg
          linarith
        have h2 : ((d : Int) : ℚ) < (((k : Int) + 1 : Int) : ℚ) := by
          push_cast
          linarith
        have h3 : d < (k : Int) + 1 := by exact_mod_cast h2
        omega
    have hdeq : d = (k : Int) := le_antisymm hdk hkd
    rw [hd, hPk, hdeq]
    push_cast
    ring

/-- Gaps after a frame sent at tick `k0`, while the callback runs on the ticks
`time, time + 1, ...` and no frame went out on the ticks between `k0` and `time`. -/
theorem frame_times_gaps_from (order : ByteOrder) :
    ∀ (n : Nat) (s : GenericRWHardwareModel) (time k0 : Int),
      0 < s._sim_microseconds_per_tick → 0 ≤ s._period → k0 < time →
      s._prev_data_sent_time = abs_time s k0 →
      (time - 1 = k0 ∨ abs_time s (time - 1) ≤ next_time s) →
      ∀ p ∈ (abs_time s k0 :: frame_times order s time n).zip (frame_times order s time n),
        gap_within_tick s._period (tick_seconds s) p.1 p.2
  | 0, _, _, _, _, _, _, _, _ => by
    intro p hp
    simp [frame_times] at hp
  | n + 1, s, time, k0, hu, hP, hk, hprev, hinv => by
    have hg : 0 < tick_seconds s := by
      unfold tick_seconds
      have : (0 : ℚ) < (s._sim_microseconds_per_tick : ℚ) := by exact_mod_cast hu
      positivity
    by_cases hdue : next_time s < abs_time s time
    · have hw := (wrote_frame_iff order s time).2 hdue
      have hs' := send_periodic_data_of_due order s time hdue
      have hfirst : gap_within_tick s._period (tick_seconds s) (abs_time s k0)
          (abs_time s time) := by
        apply gap_within_tick_of_first_due _ _ _ _ (time - k0) hg hP (abs_time_sub s time k0)
          (by omega)
        · rcases hinv with h1 | h2
          · left; omega
          · right
            have hstep := abs_time_sub s time (time - 1)
            have : ((time - (time - 1) : Int) : ℚ) = 1 := by push_cast; ring
            rw [this, one_mul] at hstep
            unfold next_time at h2
            rw [hprev] at h2
            unfold tick_seconds at hstep ⊢
            linarith
        · unfold next_time at hdue
          rw [hprev] at hdue
          unfold tick_seconds
          exact hdue
      have ih := frame_times_gaps_from order n (send_periodic_data order s time)
        (time + 1) time (by rw [hs']; exact hu) (by rw [hs']; exact hP) (by omega)
        (by rw [hs']; rfl) (Or.inl (by omega))
      intro p hp
      simp only [frame_times, hw, if_true, List.zip_cons_cons, List.mem_cons] at hp
      rcases hp with rfl | hp
      · exact hfirst
      · have := ih p
        rw [hs'] at this
        rw [hs'] at hp
        exact this hp
    · have hw : ¬ wrote_frame order s time = true := fun h =>
        hdue ((wrote_frame_iff order s time).1 h)
      have hs' := send_periodic_data_of_not_due order s time hdue
      have ih := frame_times_gaps_from order n s (time + 1) k0 hu hP (by omega) hprev
        (Or.inr (by
          have : time + 1 - 1 = time := by omega
          rw [this]
          exact not_lt.1 hdue))
      intro p hp
      simp only [frame_times, hw, if_false, hs', Bool.false_eq_true] at hp
      exact ih p hp

/-- Gaps between the frames written while the callback runs on consecutive ticks, from
any state. -/
theorem frame_times_gaps (order : ByteOrder) :
    ∀ (n : Nat) (s : GenericRWHardwareModel) (time : Int),
      0 < s._sim_microseconds_per_tick → 0 ≤ s._period →
      ∀ p ∈ (frame_times order s time n).zip (frame_times order s time n).tail,
        gap_within_tick s._period (tick_seconds s) p.1 p.2
  | 0, _, _, _, _ => by
    intro p hp
    simp [frame_times] at hp
  | n + 1, s, time, hu, hP => by
    by_cases hdue : next_time s < abs_time s time
    · have hw := (wrote_frame_iff order s time).2 hdue
      have hs' := send_periodic_data_of_due order s time hdue
      have h := frame_times_gaps_from order n (send_periodic_data order s time)
        (time + 1) time (by rw [hs']; exact hu) (by rw [hs']; exact hP) (by omega)
        (by rw [hs']; rfl) (Or.inl (by omega))
      intro p hp
      simp only [frame_times, hw, if_true, List.tail_cons] at hp
      have := h p
      rw [hs'] at this
      rw [hs'] at hp
      exact this hp
    · have hw : ¬ wrote_frame order s time = true := fun h =>
        hdue ((wrote_frame_iff order s time).1 h)
      have hs' := send_periodic_data_of_not_due order s time hdue
      intro p hp
      simp only [frame_times, hw, if_false, hs', Bool.false_eq_true] at hp
      exact frame_times_gaps order n s (time + 1) hu hP p hp

/-! ## Helper lemmas on the scheduler as the machine computes it -/

/-- Values of the binary64 operations: the literals are the conversions of their
integers; `100000 / 1000000.0` is the `double` nearest to `0.1`; `0.1 + 0.2` rounds up
to `0.30000000000000004`; `2^53 + 1` converts to `2^53` (tie to even); the difference
of two infinities is a NaN, and a NaN is below nothing. -/
theorem binary64_operations_at_known_values :
    f64_of_int64 2 = 0x4000000000000000 ∧
    f64_of_int64 10 = f64_10 ∧
    f64_of_int64 1000000 = f64_1000000 ∧
    f64_div (f64_of_int64 100000) f64_1000000 = 0x3FB999999999999A ∧
    f64_add 0x3FB999999999999A 0x3FC999999999999A = 0x3FD3333333333334 ∧
    f64_of_int64 9007199254740993 = 0x4340000000000000 ∧
    f64_of_int64 (-1) = 0xBFF0000000000000 ∧
    f64_sub f64_infinity f64_infinity = f64_nan ∧
    f64_lt f64_nan f64_infinity = false ∧
    f64_lt 0x8000000000000000 0 = false ∧
    f64_lt 0xBFF0000000000000 0 = true := by
  decide

theorem Binary64.send_periodic_data_when_due (order : ByteOrder)
    (s : Binary64.GenericRWHardwareModel) (time : Int)
    (h : f64_lt (Binary64.next_time s) (Binary64.abs_time s time) = true) :
    Binary64.send_periodic_data order s time =
      { s with _prev_data_sent_time := Binary64.abs_time s time,
               _uart_connection :=
                 s._uart_connection ++ [create_rw_data order s._sdp.data_point []] } := by
  simp only [Binary64.send_periodic_data, h, if_true]

theorem Binary64.send_periodic_data_when_not_due (order : ByteOrder)
    (s : Binary64.GenericRWHardwareModel) (time : Int)
    (h : f64_lt (Binary64.next_time s) (Binary64.abs_time s time) = false) :
    Binary64.send_periodic_data order s time = s := by
  simp only [Binary64.send_periodic_data, h, Bool.false_eq_true, if_false]

/-- The flag `_keep_running` is not touched by the machine reading either. -/
theorem Binary64.send_periodic_data_leaves_keep_running (order : ByteOrder)
    (s : Binary64.GenericRWHardwareModel) (time : Int) :
    (Binary64.send_periodic_data order s time)._keep_running = s._keep_running := by
  cases h : f64_lt (Binary64.next_time s) (Binary64.abs_time s time)
  · rw [Binary64.send_periodic_data_when_not_due order s time h]
  · rw [Binary64.send_periodic_data_when_due order s time h]

/-- Inputs at which rounding or the wrap-around of the tick product decides the send,
all with ticks of `0.1` s and start time `0.0`: period `0.25` from previous send time
`0.0` sends at the ticks 3, 6 and 8 of the ticks 0..8; period `2.15` does not send at
tick 21; a freshly constructed model of period `0.45` sends at tick 104; and at tick
`92233720368548`, where the product exceeds `int64_t`, period `1.0` does not send. -/
theorem Binary64.send_decision_at_rounding_boundaries (order : ByteOrder) :
    Binary64.sent_ticks order (Binary64.scheduler 0 0x3FD0000000000000 0) 0 9 = [3, 6, 8] ∧
    Binary64.sent_ticks order (Binary64.scheduler 0 0x4001333333333333 0) 21 1 = [] ∧
    Binary64.sent_ticks order
      (Binary64.constructed 0 100000 0x3FDCCCCCCCCCCCCD socket_provider) 104 1 = [104] ∧
    Binary64.sent_ticks order (Binary64.scheduler 0 0x3FF0000000000000 0)
      92233720368548 1 = [] := by
  cases order <;> decide

/-! ## Claims on the telemetry path -/

/-- C5: for every state and every tick, with `abs_time` the tick converted to seconds
and `half_tick` half the tick granularity, all computed as the machine computes them,
`send_periodic_data` writes on the UART if and only if
`_prev_data_sent_time + _period - half_tick < abs_time`; when it writes, it writes
exactly one frame (of 8 bytes), sets `_prev_data_sent_time` to `abs_time` and changes
no other member; when it does not, the model is unchanged.  With period 1.0, tick 0.1
and previous send time 0.0: a tick at 0.5 sends nothing, a tick at 1.05 sends and
records 1.05, and after that a tick at 1.1 sends nothing. -/
theorem telemetry_send_decision :
    (∀ (order : ByteOrder) (s : Binary64.GenericRWHardwareModel) (time : Int),
      let abs_time : Nat :=
        f64_add s._absolute_start_time
          (f64_div (f64_of_int64 (wrap_int64 (time * s._sim_microseconds_per_tick)))
            f64_1000000)
      let half_tick : Nat :=
        f64_div (f64_div (f64_of_int64 s._sim_microseconds_per_tick) f64_1000000)
          (f64_of_int64 2)
      let due : Bool :=
        f64_lt (f64_sub (f64_add s._prev_data_sent_time s._period) half_tick) abs_time
      ((Binary64.send_periodic_data order s time)._uart_connection ≠ s._uart_connection ↔
        due = true) ∧
      (due = true →
        (∃ frame : List Nat, frame.length = 8 ∧
          Binary64.send_periodic_data order s time =
            { s with _prev_data_sent_time := abs_time,
                     _uart_connection := s._uart_connection ++ [frame] })) ∧
      (due = false → Binary64.send_periodic_data order s time = s)) ∧
    (∀ order : ByteOrder,
      Binary64.abs_time (Binary64.scheduler 0 0x3FF0000000000000 0) 5
        = 0x3FE0000000000000 ∧
      Binary64.send_periodic_data order (Binary64.scheduler 0 0x3FF0000000000000 0) 5
        = Binary64.scheduler 0 0x3FF0000000000000 0 ∧
      Binary64.abs_time (Binary64.scheduler 0x3FA999999999999A 0x3FF0000000000000 0) 10
        = 0x3FF0CCCCCCCCCCCD ∧
      (Binary64.send_periodic_data order
        (Binary64.scheduler 0x3FA999999999999A 0x3FF0000000000000 0) 10)._uart_connection
        = [create_rw_data order socket_provider.data_point []] ∧
      (Binary64.send_periodic_data order
        (Binary64.scheduler 0x3FA999999999999A 0x3FF0000000000000 0)
          10)._prev_data_sent_time
        = 0x3FF0CCCCCCCCCCCD ∧
      (let s1 := Binary64.send_periodic_data order
          (Binary64.scheduler 0x3FA999999999999A 0x3FF0000000000000 0) 10
       let s2 := { s1 with _absolute_start_time := 0 }
       Binary64.abs_time s2 11 = 0x3FF199999999999A ∧
       Binary64.send_periodic_data order s2 11 = s2)) := by
  constructor
  · intro order s time
    have hnext : f64_sub (f64_add s._prev_data_sent_time s._period)
        (f64_div (f64_div (f64_of_int64 s._sim_microseconds_per_tick) f64_1000000)
          (f64_of_int64 2)) = Binary64.next_time s := rfl
    have habs : f64_add s._absolute_start_time
        (f64_div (f64_of_int64 (wrap_int64 (time * s._sim_microseconds_per_tick)))
          f64_1000000) = Binary64.abs_time s time := rfl
    simp only [hnext, habs]
    refine ⟨?_, ?_, ?_⟩
    · cases h : f64_lt (Binary64.next_time s) (Binary64.abs_time s time)
      · rw [Binary64.send_periodic_data_when_not_due order s time h]
        simp
      · rw [Binary64.send_periodic_data_when_due order s time h]
        simp
    · intro h
      exact ⟨_, create_rw_data_length order s._sdp.data_point,
        Binary64.send_periodic_data_when_due order s time h⟩
    · intro h
      exact Binary64.send_periodic_data_when_not_due order s time h
  · intro order
    cases order
    · refine ⟨by decide, by decide, by decide, by decide, by decide, ?_⟩
      intro s1 s2
      exact ⟨by decide, by decide⟩
    · refine ⟨by decide, by decide, by decide, by decide, by decide, ?_⟩
      intro s1 s2
      exact ⟨by decide, by decide⟩

/-- C6: for every 64-bit pattern of the momentum, `create_rw_data` on an empty buffer
yields exactly 8 bytes, namely bytes 0..7 of the pattern as it lies in memory on the
host, each below 256, and reading these 8 bytes back in the same byte order gives the
pattern again. -/
theorem frame_round_trip (order : ByteOrder) (data_point : GenericRWDataPoint)
    (h : data_point.momentum < 2 ^ 64) :
    (create_rw_data order data_point []).length = 8 ∧
    create_rw_data order data_point [] =
      (List.range 8).map (u_mom order data_point.momentum) ∧
    (∀ b ∈ create_rw_data order data_point [], b < 256) ∧
    read_back order (create_rw_data order data_point []) = data_point.momentum := by
  obtain ⟨d⟩ := data_point
  simp only at h
  refine ⟨rfl, rfl, ?_, ?_⟩
  · intro b hb
    cases order <;>
      simp only [create_rw_data, u_mom, List.nil_append, List.cons_append, List.mem_cons,
        List.mem_singleton, List.not_mem_nil, or_false] at hb <;>
      rcases hb with rfl | rfl | rfl | rfl | rfl | rfl | rfl | rfl <;>
      exact Nat.mod_lt _ (by norm_num)
  · cases order
    · simp only [read_back, create_rw_data, u_mom, List.range, List.range.loop,
        List.foldr, List.nil_append, List.cons_append, List.getD_cons_zero,
        List.getD_cons_succ]
      norm_num
      omega
    · simp only [read_back, create_rw_data, u_mom, List.range, List.range.loop,
        List.foldr, List.nil_append, List.cons_append, List.getD_cons_zero,
        List.getD_cons_succ]
      norm_num
      omega

theorem frame_round_trip_witness :
    (0x3FB999999999999A < 2 ^ 64) ∧
    create_rw_data ByteOrder.little_endian ⟨0x3FB999999999999A⟩ [] =
      [0x9A, 0x99, 0x99, 0x99, 0x99, 0x99, 0xB9, 0x3F] ∧
    ((create_rw_data ByteOrder.little_endian ⟨0x3FB999999999999A⟩ []).length = 8 ∧
      create_rw_data ByteOrder.little_endian ⟨0x3FB999999999999A⟩ [] =
        (List.range 8).map (u_mom ByteOrder.little_endian 0x3FB999999999999A) ∧
      (∀ b ∈ create_rw_data ByteOrder.little_endian ⟨0x3FB999999999999A⟩ [], b < 256) ∧
      read_back ByteOrder.little_endian
        (create_rw_data ByteOrder.little_endian ⟨0x3FB999999999999A⟩ []) =
          0x3FB999999999999A) :=
  ⟨by decide, by decide,
    frame_round_trip ByteOrder.little_endian ⟨0x3FB999999999999A⟩ (by decide)⟩

/-- C10: with a positive tick granularity and a period `≥ 0`, in exact arithmetic, when
`send_periodic_data` is called once for each consecutive tick count, the simulated time
between any two consecutive frames it writes differs from `_period` by at most one tick
granularity, and equals `_period` when `_period` is a whole number `k ≥ 1` of ticks. -/
theorem inter_send_gap (order : ByteOrder) (s : GenericRWHardwareModel) (time : Int)
    (n : Nat) (hg : 0 < s._sim_microseconds_per_tick) (hp : 0 ≤ s._period) :
    ∀ p ∈ (frame_times order s time n).zip (frame_times order s time n).tail,
      |(p.2 - p.1) - s._period| ≤ (s._sim_microseconds_per_tick : ℚ) / 1000000 ∧
      ∀ k : Nat, 1 ≤ k →
        s._period = k * ((s._sim_microseconds_per_tick : ℚ) / 1000000) →
        p.2 - p.1 = s._period :=
  frame_times_gaps order n s time hg hp

theorem inter_send_gap_witness :
    0 < (scheduler 0 0)._sim_microseconds_per_tick ∧
    0 ≤ (scheduler 0 0)._period ∧
    frame_times ByteOrder.little_endian (scheduler 0 0) 9 12 = [1, 2] ∧
    ∀ p ∈ (frame_times ByteOrder.little_endian (scheduler 0 0) 9 12).zip
        (frame_times ByteOrder.little_endian (scheduler 0 0) 9 12).tail,
      |(p.2 - p.1) - (scheduler 0 0)._period| ≤
          ((scheduler 0 0)._sim_microseconds_per_tick : ℚ) / 1000000 ∧
      ∀ k : Nat, 1 ≤ k →
        (scheduler 0 0)._period =
          k * (((scheduler 0 0)._sim_microseconds_per_tick : ℚ) / 1000000) →
        p.2 - p.1 = (scheduler 0 0)._period :=
  ⟨by decide,
    by norm_num [scheduler, rw_sim, GenericRWHardwareModel.constructed],
    by norm_num [frame_times, wrote_frame, send_periodic_data, next_time, abs_time,
      scheduler, rw_sim, GenericRWHardwareModel.constructed],
    inter_send_gap ByteOrder.little_endian (scheduler 0 0) 9 12 (by decide)
      (by norm_num [scheduler, rw_sim, GenericRWHardwareModel.constructed])⟩

end Nos3
